import Mathlib

/-!
# Verification of `dali::ThreadPool` (src/dali/pipeline/util/thread_pool.h)

A shallow embedding of the fixed-size worker-thread pool.  The pool is
modelled as a labelled transition system over `PoolState`: each protected
region of the C++ code (everything between a lock acquisition and the
matching release, plus thread creation and the condition-variable guarded
transitions) becomes one atomic step of the relation `Step`.  The
error-checking part of `ThreadPool::WaitForWork` is a pure function
`waitForWork` over the per-thread error registry `tl_errors_`.

Machine integers of the source (`int active_threads_`) are modelled as
`Int`; the `std::queue` containers are Lean lists with the head of the
list as the front of the queue (push appends at the tail, pop removes the
head).
-/

namespace DALI

/-- The result of running a work item (or the per-thread initialisation
section of `ThreadMain`): it returns normally, throws a
`std::runtime_error` carrying a message, or throws something of an
unrecognised kind (the `catch(...)` branch). -/
inductive Outcome where
  | success
  | failure (msg : String)
  | unknownFailure
deriving DecidableEq, Repr

/-- The phase of a single worker thread inside `ThreadPool::ThreadMain`:
running the initialisation section, blocked/looking for work, executing a
popped item (identified by its submission index), or exited. -/
inductive WorkerPhase where
  | initializing
  | idle
  | executing (item : Nat)
  | terminated
deriving DecidableEq, Repr

/-- The shared state of a `dali::ThreadPool`.

Fields `workQueue`, `running`, `workComplete`, `activeThreads` and
`tlErrors` embed the members `work_queue_`, `running_`, `work_complete_`,
`active_threads_` and `tl_errors_` of the C++ class; `numThreads` is
`threads_.size()` and `workers` tracks where each spawned thread is in
`ThreadMain`.  Work items are identified by their submission index
(`nextId` counts submissions).  `submitted`, `started` and
`completedCount` are history variables recording, in order, the ids
pushed by `DoWorkWithID`, the ids popped by workers, and how many popped
items have finished executing; they are written only by the steps that
perform the corresponding source action and exist purely for
specification. -/
structure PoolState where
  numThreads : Nat
  workQueue : List Nat
  running : Bool
  workComplete : Bool
  activeThreads : Int
  tlErrors : List (List String)
  workers : List WorkerPhase
  nextId : Nat
  submitted : List Nat
  started : List Nat
  completedCount : Nat
deriving DecidableEq, Repr

/-- Modelled from the spec: `DALI_ENFORCE` lives in dali/common.h, which
is not part of the given source; per the spec it validates a condition,
"failing fast with an invalid-argument condition otherwise". -/
def daliEnforce (cond : Bool) (msg : String) : Except String Unit :=
  if cond then Except.ok () else Except.error msg

/-- The pool state at the end of a successful constructor run:
`running_ = true`, `work_complete_ = true`, `active_threads_ = 0`,
`num_thread` spawned threads each at the top of `ThreadMain`, and
`tl_errors_` resized to `num_thread` empty queues. -/
def construct (n : Nat) : PoolState :=
  { numThreads := n
    workQueue := []
    running := true
    workComplete := true
    activeThreads := 0
    tlErrors := List.replicate n []
    workers := List.replicate n WorkerPhase.initializing
    nextId := 0
    submitted := []
    started := []
    completedCount := 0 }

/-- The member initialiser `threads_(num_thread)`, which runs before the
constructor body.  `num_thread` is a C++ `int` (|value| < 2^31); the
fill constructor of `std::vector<std::thread>` receives it converted to
the unsigned 64-bit size type by modular conversion, so a negative count
becomes a value ≥ 2^64 − 2^31, far above `max_size()` (≤ 2^63 bytes
worth of 8-byte elements, i.e. ≤ 2^60), and the fill constructor throws
`std::length_error`; a non-negative `int` count is < 2^31 ≤ `max_size()`
and succeeds.  On the `int` domain the throw condition is therefore
exactly `num_thread < 0`. -/
def threadsMemberInit (numThread : Int) : Except String Unit :=
  if numThread < 0 then
    Except.error "cannot create std::vector larger than max_size()"
  else Except.ok ()

/-- `ThreadPool::ThreadPool(num_thread, device_id, set_affinity)`: the
member initialiser list (`threads_(num_thread)`, which can throw for a
negative count) runs first; only then does the body check
`DALI_ENFORCE(num_thread > 0, "Thread pool must have non-zero size")`
and start the threads, yielding the state `construct num_thread`.
(`device_id` / `set_affinity` only feed the initialisation section, whose
outcome is the `Outcome` parameter of the `init` step.) -/
def mkThreadPool (numThread : Int) : Except String PoolState := do
  _ ← threadsMemberInit numThread
  _ ← daliEnforce (decide (numThread > 0)) "Thread pool must have non-zero size"
  pure (construct numThread.toNat)

/-- The `catch` blocks of `ThreadMain`: a normal return records nothing, a
`std::runtime_error e` pushes `e.what()` onto this thread's error queue,
and any other exception pushes `"Caught unknown exception"`. -/
def recordOutcome (o : Outcome) (q : List String) : List String :=
  match o with
  | Outcome.success => q
  | Outcome.failure msg => q ++ [msg]
  | Outcome.unknownFailure => q ++ ["Caught unknown exception"]

/-- The error string built by `WaitForWork` for worker `i`:
`"Error in thread " + std::to_string(i) + ": " + tl_errors_[i].front()`. -/
def errMsg (i : Nat) (e : String) : String :=
  "Error in thread " ++ toString i ++ ": " ++ e

/-- The scan loop of `WaitForWork` starting at worker index `i`: walk the
error queues in ascending index order; at the first non-empty queue, pop
its front and throw the formatted error (returned as `some`, together
with the updated registry).  Returns `none` if every queue is empty. -/
def scanErrors (errs : List (List String)) (i : Nat) :
    Option String × List (List String) :=
  match errs with
  | [] => (none, [])
  | q :: rest =>
    match q with
    | [] =>
      let r := scanErrors rest (i + 1)
      (r.1, [] :: r.2)
    | e :: qrest => (some (errMsg i e), qrest :: rest)

/-- The body of `ThreadPool::WaitForWork(checkForErrors)` after the
completion wait has been passed: with `checkForErrors` it runs the error
scan (first component: the error thrown, if any; second: the registry
afterwards); without it the registry is untouched and nothing is
reported. -/
def waitForWork (checkForErrors : Bool) (errs : List (List String)) :
    Option String × List (List String) :=
  if checkForErrors then scanErrors errs 0 else (none, errs)

/-- Total number of queued error strings across all workers. -/
def totalErrors (errs : List (List String)) : Nat :=
  (errs.map List.length).sum

/-- `true` exactly on the `executing` phase. -/
def isExecuting : WorkerPhase → Bool
  | WorkerPhase.executing _ => true
  | _ => false

/-- Number of workers currently executing a work item. -/
def execCount (s : PoolState) : Nat :=
  s.workers.countP isExecuting

/-- Labels of the transition system: which source action a step performs.
`t` is a worker index, `i` a work-item id, `o` the outcome of running
user code (the initialisation section or a work item). -/
inductive Label where
  | submit
  | init (t : Nat) (o : Outcome)
  | start (t : Nat) (i : Nat)
  | finish (t : Nat) (i : Nat) (o : Outcome)
  | exitLoop (t : Nat)
  | wait (checkForErrors : Bool)
  | shutdown
deriving DecidableEq, Repr

/-- One atomic transition of the pool.  Each constructor embeds one
lock-protected region (or condition-variable guarded transition) of the
source:

* `submit` — `DoWorkWithID`: push the work item, clear `work_complete_`.
  It requires `running = true`: submissions race with the destructor only
  under a use-after-free, which is outside the modelled behaviours.
* `init` — the `try { cudaSetDevice / SetCPUAffinity } catch ...` section
  at the top of `ThreadMain`, recording a failure in `tl_errors_[t]`.
* `start` — a worker whose wait predicate
  `!(running_ && work_queue_.empty())` holds, with `running_` still true,
  pops the queue front and increments `active_threads_`.
* `finish` — the worker returns from `work(thread_id)` with outcome `o`,
  records any error, decrements `active_threads_` and sets
  `work_complete_` when the queue is drained and nobody is active.
* `exitLoop` — the `if (!running_) break;` (or the `while (running_)`
  test) makes the worker leave the loop; note the guard of the source is
  only `running_ = false`, not queue emptiness.
* `wait` — `WaitForWork(checkForErrors)`: enabled once `work_complete_`
  holds (the `completed_.wait` predicate); updates the error registry.
* `shutdown` — the destructor after its internal `WaitForWork(false)`
  returned (hence the `workComplete` guard): sets `running_ = false` and
  wakes all workers. -/
inductive Step : Label → PoolState → PoolState → Prop where
  | submit (s : PoolState) (hr : s.running = true) :
      Step Label.submit s
        { s with
          workQueue := s.workQueue ++ [s.nextId]
          workComplete := false
          nextId := s.nextId + 1
          submitted := s.submitted ++ [s.nextId] }
  | init (s : PoolState) (t : Nat) (o : Outcome)
      (hw : s.workers.getD t WorkerPhase.terminated = WorkerPhase.initializing) :
      Step (Label.init t o) s
        { s with
          workers := s.workers.set t WorkerPhase.idle
          tlErrors := s.tlErrors.set t (recordOutcome o (s.tlErrors.getD t [])) }
  | start (s : PoolState) (t : Nat) (i : Nat) (rest : List Nat)
      (hw : s.workers.getD t WorkerPhase.terminated = WorkerPhase.idle)
      (hr : s.running = true)
      (hq : s.workQueue = i :: rest) :
      Step (Label.start t i) s
        { s with
          workQueue := rest
          activeThreads := s.activeThreads + 1
          workers := s.workers.set t (WorkerPhase.executing i)
          started := s.started ++ [i] }
  | finish (s : PoolState) (t : Nat) (i : Nat) (o : Outcome)
      (hw : s.workers.getD t WorkerPhase.terminated = WorkerPhase.executing i) :
      Step (Label.finish t i o) s
        { s with
          workers := s.workers.set t WorkerPhase.idle
          tlErrors := s.tlErrors.set t (recordOutcome o (s.tlErrors.getD t []))
          activeThreads := s.activeThreads - 1
          workComplete :=
            if s.workQueue = [] ∧ s.activeThreads - 1 = 0 then true
            else s.workComplete
          completedCount := s.completedCount + 1 }
  | exitLoop (s : PoolState) (t : Nat)
      (hw : s.workers.getD t WorkerPhase.terminated = WorkerPhase.idle)
      (hr : s.running = false) :
      Step (Label.exitLoop t) s
        { s with workers := s.workers.set t WorkerPhase.terminated }
  | wait (s : PoolState) (checkForErrors : Bool)
      (hc : s.workComplete = true) :
      Step (Label.wait checkForErrors) s
        { s with tlErrors := (waitForWork checkForErrors s.tlErrors).2 }
  | shutdown (s : PoolState)
      (hc : s.workComplete = true)
      (hr : s.running = true) :
      Step Label.shutdown s { s with running := false }

/-- `s` is reachable from the freshly constructed pool of `n` threads by
some sequence of steps. -/
def Reachable (n : Nat) (s : PoolState) : Prop :=
  Relation.ReflTransGen (fun a b => ∃ l, Step l a b) (construct n) s

/-! ### List helper lemmas -/

theorem getD_set_self {α : Type} (l : List α) (t : Nat) (a d : α)
    (h : t < l.length) : (l.set t a).getD t d = a := by
  simp [List.getD, List.getElem?_set_self, h]

theorem getD_set_of_ne {α : Type} (l : List α) (t u : Nat) (a d : α)
    (h : t ≠ u) : (l.set t a).getD u d = l.getD u d := by
  simp [List.getD, List.getElem?_set_ne, h]

theorem getD_lt_length {α : Type} {l : List α} {t : Nat} {d w : α}
    (h : l.getD t d = w) (hne : w ≠ d) : t < l.length := by
  by_contra hge
  rw [List.getD_eq_default _ _ (Nat.le_of_not_lt hge)] at h
  exact hne h.symm

theorem countP_set_aux {α : Type} (p : α → Bool) (l : List α) (t : Nat)
    (a d : α) (h : t < l.length) :
    (l.set t a).countP p + (if p (l.getD t d) then 1 else 0)
      = l.countP p + (if p a then 1 else 0) := by
  induction l generalizing t with
  | nil => simp at h
  | cons x xs ih =>
    cases t with
    | zero =>
      simp [List.countP_cons, List.getD]
      omega
    | succ t =>
      simp only [List.set, List.countP_cons, List.getD_cons_succ]
      have := ih t (by simpa using h)
      omega

theorem scanErrors_length (errs : List (List String)) (i : Nat) :
    (scanErrors errs i).2.length = errs.length := by
  induction errs generalizing i with
  | nil => simp [scanErrors]
  | cons q rest ih =>
    cases q with
    | nil => simp [scanErrors, ih]
    | cons e qrest => simp [scanErrors]

theorem waitForWork_length (checkForErrors : Bool) (errs : List (List String)) :
    (waitForWork checkForErrors errs).2.length = errs.length := by
  cases checkForErrors with
  | false => simp [waitForWork]
  | true => simp [waitForWork, scanErrors_length]

theorem countP_replicate_false {α : Type} (p : α → Bool) (n : Nat) (a : α)
    (h : p a = false) : (List.replicate n a).countP p = 0 := by
  induction n with
  | zero => simp
  | succ n ih => simp [List.replicate_succ, List.countP_cons, ih, h]

theorem scanErrors_of_all_empty (errs : List (List String)) (i : Nat)
    (h : totalErrors errs = 0) : scanErrors errs i = (none, errs) := by
  induction errs generalizing i with
  | nil => simp [scanErrors]
  | cons q rest ih =>
    cases q with
    | nil =>
      simp only [totalErrors, List.map_cons, List.sum_cons, List.length_nil,
        Nat.zero_add] at h
      have h2 := ih (i + 1) h
      simp [scanErrors, h2]
    | cons e qrest =>
      simp [totalErrors] at h

theorem scanErrors_drains_one (errs : List (List String)) (i : Nat)
    (h : totalErrors errs ≠ 0) :
    (scanErrors errs i).1.isSome = true ∧
      totalErrors (scanErrors errs i).2 = totalErrors errs - 1 := by
  induction errs generalizing i with
  | nil => simp [totalErrors] at h
  | cons q rest ih =>
    cases q with
    | nil =>
      simp only [totalErrors, List.map_cons, List.sum_cons, List.length_nil,
        Nat.zero_add] at h
      have := ih (i + 1) h
      simp only [scanErrors]
      constructor
      · exact this.1
      · simp only [totalErrors, List.map_cons, List.sum_cons, List.length_nil,
          Nat.zero_add]
        exact this.2
    | cons e qrest =>
      simp [scanErrors, totalErrors]

theorem scanErrors_first_nonempty (errs : List (List String)) (i k : Nat)
    (e : String) (qrest : List String)
    (hk : errs.getD k [] = e :: qrest)
    (hmin : ∀ j, j < k → errs.getD j [] = []) :
    scanErrors errs i = (some (errMsg (i + k) e), errs.set k qrest) := by
  induction errs generalizing i k with
  | nil =>
    rw [List.getD_eq_default] at hk
    · cases hk
    · simp
  | cons q rest ih =>
    cases k with
    | zero =>
      simp only [List.getD_cons_zero] at hk
      subst hk
      simp [scanErrors]
    | succ k =>
      have hq : q = [] := hmin 0 (Nat.succ_pos k)
      subst hq
      simp only [List.getD_cons_succ] at hk
      have hmin' : ∀ j, j < k → rest.getD j [] = [] := by
        intro j hj
        have := hmin (j + 1) (Nat.succ_lt_succ hj)
        simpa using this
      have := ih (i + 1) k hk hmin'
      simp only [scanErrors, this]
      have harith : i + 1 + k = i + (k + 1) := by omega
      rw [harith, List.set_cons_succ]

theorem totalErrors_set (errs : List (List String)) (k : Nat)
    (q : List String) (hk : k < errs.length) :
    totalErrors (errs.set k q) + (errs.getD k []).length
      = totalErrors errs + q.length := by
  induction errs generalizing k with
  | nil => simp at hk
  | cons x xs ih =>
    cases k with
    | zero => simp [totalErrors]; omega
    | succ k =>
      simp only [List.set, totalErrors, List.map_cons, List.sum_cons,
        List.getD_cons_succ]
      have := ih k (by simpa using hk)
      simp only [totalErrors] at this
      omega

theorem getD_replicate_nil (n j : Nat) :
    (List.replicate n ([] : List String)).getD j [] = [] := by
  induction n generalizing j with
  | zero => simp
  | succ n ih =>
    cases j with
    | zero => simp [List.replicate_succ]
    | succ j => simp [List.replicate_succ, ih]

theorem set_replicate_self {α : Type} (n k : Nat) (a : α) :
    (List.replicate n a).set k a = List.replicate n a := by
  induction n generalizing k with
  | zero => simp
  | succ n ih =>
    cases k with
    | zero => simp [List.replicate_succ]
    | succ k => simp [List.replicate_succ, ih]

/-- The registry holding exactly one error `m` at worker `k` (all other
queues empty): error-checking wait surfaces `"Error in thread k: m"` and
leaves the registry fully drained. -/
theorem waitForWork_single (n k : Nat) (m : String) (hk : k < n) :
    waitForWork true ((List.replicate n ([] : List String)).set k [m])
      = (some (errMsg k m), List.replicate n []) := by
  have hlen : k < (List.replicate n ([] : List String)).length := by simpa using hk
  have hget : ((List.replicate n ([] : List String)).set k [m]).getD k [] = [m] :=
    getD_set_self _ _ _ _ hlen
  have hmin : ∀ j, j < k →
      ((List.replicate n ([] : List String)).set k [m]).getD j [] = [] := by
    intro j hj
    rw [getD_set_of_ne _ _ _ _ _ (Nat.ne_of_gt hj)]
    exact getD_replicate_nil n j
  have := scanErrors_first_nonempty _ 0 k m [] hget hmin
  rw [Nat.zero_add] at this
  rw [waitForWork, if_pos rfl, this, List.set_set, set_replicate_self]

/-! ### The global invariant -/

/-- The inductive invariant tying the shared fields of the pool together:
`threads_.size()` and `tl_errors_.size()` are the constructed thread
count; `work_complete_` holds exactly when the queue is drained and no
worker is active (the spec's completion predicate); once `running_` is
cleared the queue is empty; the popped ids followed by the still-queued
ids are exactly the submitted ids in submission order; submitted ids are
consecutive; `active_threads_` counts the workers in the executing phase;
and every popped item is either finished or currently executing. -/
structure GoodState (n : Nat) (s : PoolState) : Prop where
  workersLen : s.workers.length = n
  errorsLen : s.tlErrors.length = n
  completeIff : s.workComplete = true ↔ (s.workQueue = [] ∧ s.activeThreads = 0)
  stoppedDrained : s.running = false → s.workQueue = []
  submittedEq : s.submitted = List.range s.nextId
  fifo : s.started ++ s.workQueue = s.submitted
  activeEq : s.activeThreads = (execCount s : Int)
  startedLen : s.started.length = s.completedCount + execCount s

theorem goodState_construct (n : Nat) : GoodState n (construct n) := by
  refine ⟨?_, ?_, ?_, ?_, ?_, ?_, ?_, ?_⟩ <;>
    simp [construct, execCount, countP_replicate_false, isExecuting]

theorem goodState_step {n : Nat} {s s' : PoolState} {l : Label}
    (ih : GoodState n s) (hstep : Step l s s') : GoodState n s' := by
  obtain ⟨hWL, hEL, hCI, hSD, hSE, hFF, hAE, hSL⟩ := ih
  have hAE' : s.activeThreads = (s.workers.countP isExecuting : Int) := hAE
  have hSL' : s.started.length = s.completedCount + s.workers.countP isExecuting := hSL
  cases hstep with
  | submit _ hr =>
    refine ⟨hWL, hEL, ?_, ?_, ?_, ?_, hAE, hSL⟩
    · simp
    · simp [hr]
    · show s.submitted ++ [s.nextId] = List.range (s.nextId + 1)
      rw [hSE, List.range_succ]
    · show s.started ++ (s.workQueue ++ [s.nextId]) = s.submitted ++ [s.nextId]
      rw [← List.append_assoc, hFF]
  | init _ t o hw =>
    have ht : t < s.workers.length :=
      getD_lt_length hw (by intro h; cases h)
    have hc := countP_set_aux isExecuting s.workers t WorkerPhase.idle
      WorkerPhase.terminated ht
    rw [hw] at hc
    simp [isExecuting] at hc
    refine ⟨?_, ?_, hCI, hSD, hSE, hFF, ?_, ?_⟩
    · simpa using hWL
    · simpa using hEL
    · show s.activeThreads = ((s.workers.set t WorkerPhase.idle).countP isExecuting : Int)
      rw [hc]
      exact hAE'
    · show s.started.length
        = s.completedCount + (s.workers.set t WorkerPhase.idle).countP isExecuting
      rw [hc]
      exact hSL'
  | start _ t i rest hw hr hq =>
    have ht : t < s.workers.length :=
      getD_lt_length hw (by intro h; cases h)
    have hc := countP_set_aux isExecuting s.workers t (WorkerPhase.executing i)
      WorkerPhase.terminated ht
    rw [hw] at hc
    simp [isExecuting] at hc
    have hwc : s.workComplete = false := by
      cases hb : s.workComplete with
      | false => rfl
      | true =>
        exfalso
        have := (hCI.mp hb).1
        rw [hq] at this
        cases this
    refine ⟨?_, hEL, ?_, ?_, hSE, ?_, ?_, ?_⟩
    · simpa using hWL
    · show s.workComplete = true ↔ (rest = [] ∧ s.activeThreads + 1 = 0)
      rw [hwc]
      constructor
      · intro h; cases h
      · rintro ⟨-, h2⟩
        rw [hAE'] at h2
        omega
    · simp [hr]
    · show (s.started ++ [i]) ++ rest = s.submitted
      rw [List.append_assoc, List.singleton_append, ← hq]
      exact hFF
    · show s.activeThreads + 1
        = ((s.workers.set t (WorkerPhase.executing i)).countP isExecuting : Int)
      rw [hc]
      omega
    · show (s.started ++ [i]).length
        = s.completedCount + (s.workers.set t (WorkerPhase.executing i)).countP isExecuting
      rw [hc]
      simp [List.length_append]
      omega
  | finish _ t i o hw =>
    have ht : t < s.workers.length :=
      getD_lt_length hw (by intro h; cases h)
    have hc := countP_set_aux isExecuting s.workers t WorkerPhase.idle
      WorkerPhase.terminated ht
    rw [hw] at hc
    simp [isExecuting] at hc
    refine ⟨?_, ?_, ?_, hSD, hSE, hFF, ?_, ?_⟩
    · simpa using hWL
    · simpa using hEL
    · show (if s.workQueue = [] ∧ s.activeThreads - 1 = 0 then true else s.workComplete) = true
        ↔ (s.workQueue = [] ∧ s.activeThreads - 1 = 0)
      by_cases hcond : s.workQueue = [] ∧ s.activeThreads - 1 = 0
      · simp [hcond]
      · have hwc : s.workComplete = false := by
          cases hb : s.workComplete with
          | false => rfl
          | true =>
            exfalso
            have h2 := (hCI.mp hb).2
            rw [hAE', ← hc] at h2
            omega
        simp only [if_neg hcond, hwc]
        constructor
        · intro h; cases h
        · intro h; exact absurd h hcond
    · show s.activeThreads - 1
        = ((s.workers.set t WorkerPhase.idle).countP isExecuting : Int)
      rw [hAE', ← hc]
      push_cast
      ring
    · show s.started.length
        = (s.completedCount + 1) + (s.workers.set t WorkerPhase.idle).countP isExecuting
      omega
  | exitLoop _ t hw hr =>
    have ht : t < s.workers.length :=
      getD_lt_length hw (by intro h; cases h)
    have hc := countP_set_aux isExecuting s.workers t WorkerPhase.terminated
      WorkerPhase.terminated ht
    rw [hw] at hc
    simp [isExecuting] at hc
    refine ⟨?_, hEL, hCI, hSD, hSE, hFF, ?_, ?_⟩
    · simpa using hWL
    · show s.activeThreads
        = ((s.workers.set t WorkerPhase.terminated).countP isExecuting : Int)
      rw [hc]
      exact hAE'
    · show s.started.length
        = s.completedCount + (s.workers.set t WorkerPhase.terminated).countP isExecuting
      rw [hc]
      exact hSL'
  | wait _ checkForErrors hcomp =>
    refine ⟨hWL, ?_, hCI, hSD, hSE, hFF, hAE, hSL⟩
    show (waitForWork checkForErrors s.tlErrors).2.length = n
    rw [waitForWork_length]
    exact hEL
  | shutdown _ hcomp hr =>
    exact ⟨hWL, hEL, hCI, fun _ => (hCI.mp hcomp).1, hSE, hFF, hAE, hSL⟩

theorem reachable_goodState {n : Nat} {s : PoolState} (h : Reachable n s) :
    GoodState n s := by
  have h' : Relation.ReflTransGen (fun a b => ∃ l, Step l a b) (construct n) s := h
  clear h
  induction h' with
  | refl => exact goodState_construct n
  | tail _ hstep ih =>
    obtain ⟨l, hstep⟩ := hstep
    exact goodState_step ih hstep

/-! ### A concrete demo trace

A pool of one thread: the worker finishes its initialisation section, one
item is submitted, the worker pops and executes it, and the item throws
an exception of unrecognised kind; then the destructor runs and the
worker exits.  These states instantiate the general theorems below. -/

def demo0 : PoolState := construct 1

def demo1 : PoolState :=
  { demo0 with workers := [WorkerPhase.idle], tlErrors := [[]] }

def demo2 : PoolState :=
  { demo1 with
    workQueue := [0], workComplete := false, nextId := 1, submitted := [0] }

def demo3 : PoolState :=
  { demo2 with
    workQueue := [], activeThreads := 1,
    workers := [WorkerPhase.executing 0], started := [0] }

def demo4 : PoolState :=
  { demo3 with
    workers := [WorkerPhase.idle],
    tlErrors := [["Caught unknown exception"]],
    activeThreads := 0, workComplete := true, completedCount := 1 }

def demo5 : PoolState := { demo4 with running := false }

def demo6 : PoolState := { demo5 with workers := [WorkerPhase.terminated] }

theorem demoStep01 : Step (Label.init 0 Outcome.success) demo0 demo1 :=
  Step.init demo0 0 Outcome.success rfl

theorem demoStep12 : Step Label.submit demo1 demo2 :=
  Step.submit demo1 rfl

theorem demoStep23 : Step (Label.start 0 0) demo2 demo3 :=
  Step.start demo2 0 0 [] rfl rfl rfl

theorem demoStep34 : Step (Label.finish 0 0 Outcome.unknownFailure) demo3 demo4 :=
  Step.finish demo3 0 0 Outcome.unknownFailure rfl

theorem demoStep45 : Step Label.shutdown demo4 demo5 :=
  Step.shutdown demo4 rfl rfl

theorem demoStep56 : Step (Label.exitLoop 0) demo5 demo6 :=
  Step.exitLoop demo5 0 rfl rfl

theorem demoReach1 : Reachable 1 demo1 :=
  Relation.ReflTransGen.single ⟨_, demoStep01⟩

theorem demoReach2 : Reachable 1 demo2 :=
  demoReach1.tail ⟨_, demoStep12⟩

theorem demoReach3 : Reachable 1 demo3 :=
  demoReach2.tail ⟨_, demoStep23⟩

theorem demoReach4 : Reachable 1 demo4 :=
  demoReach3.tail ⟨_, demoStep34⟩

theorem demoReach5 : Reachable 1 demo5 :=
  demoReach4.tail ⟨_, demoStep45⟩

/-! ### The claims -/

/-- C1: in every reachable state of the pool — i.e. after construction
and after each completed transition (a submit, a worker starting an item,
a worker finishing an item, and the remaining steps) — the shared flag
`work_complete_` is true if and only if the work queue is empty and the
active-thread count equals 0. -/
theorem c1_work_complete_invariant {n : Nat} {s : PoolState}
    (h : Reachable n s) :
    s.workComplete = true ↔ (s.workQueue = [] ∧ s.activeThreads = 0) :=
  (reachable_goodState h).completeIff

/-- Witness for C1 at the states `demo2` (after a submit) and `demo4`
(after the worker finished the item). -/
theorem c1_work_complete_invariant_witness :
    ((demo2.workComplete = true ↔ (demo2.workQueue = [] ∧ demo2.activeThreads = 0)) ∧
      (demo4.workComplete = true ↔ (demo4.workQueue = [] ∧ demo4.activeThreads = 0))) ∧
    demo2.workComplete = false ∧ demo4.workComplete = true :=
  ⟨⟨c1_work_complete_invariant demoReach2, c1_work_complete_invariant demoReach4⟩,
    rfl, rfl⟩

/-- C5 counterexample to the original claim: at thread count `-3`
construction does fail, but with the length error thrown by the
`threads_(num_thread)` member initialiser — not with the
invalid-argument condition of `DALI_ENFORCE`, which is never reached. -/
theorem c5_invalid_argument_counterexample :
    mkThreadPool (-3) ≠ Except.error "Thread pool must have non-zero size" ∧
    mkThreadPool (-3)
      = Except.error "cannot create std::vector larger than max_size()" := by
  refine ⟨?_, rfl⟩
  intro h
  rw [show mkThreadPool (-3)
      = Except.error "cannot create std::vector larger than max_size()" from rfl] at h
  simp at h

/-- C5 (amended): for every thread count ≤ 0, construction always fails
before any worker thread is spawned and no pool state is produced; at
thread count exactly 0 the failure is the invalid-argument condition
raised by `DALI_ENFORCE`, while at a negative count the failure is the
`std::length_error` thrown by the `threads_` member initialiser before
`DALI_ENFORCE` runs. -/
theorem c5_nonpositive_count_fails (numThread : Int) (h : numThread ≤ 0) :
    (∃ msg, mkThreadPool numThread = Except.error msg) ∧
    (numThread = 0 →
      mkThreadPool numThread
        = Except.error "Thread pool must have non-zero size") ∧
    (numThread < 0 →
      mkThreadPool numThread
        = Except.error "cannot create std::vector larger than max_size()") := by
  rcases lt_or_eq_of_le h with hneg | hzero
  · have hfill : mkThreadPool numThread
        = Except.error "cannot create std::vector larger than max_size()" := by
      simp [mkThreadPool, threadsMemberInit, hneg, Bind.bind, Except.bind]
    exact ⟨⟨_, hfill⟩, fun h0 => absurd h0 (by omega), fun _ => hfill⟩
  · subst hzero
    have henf : mkThreadPool 0
        = Except.error "Thread pool must have non-zero size" := by
      simp [mkThreadPool, threadsMemberInit, daliEnforce, Bind.bind, Except.bind]
    exact ⟨⟨_, henf⟩, fun _ => henf, fun h0 => absurd h0 (by omega)⟩

/-- Witness for C5 (amended) at thread counts `0` and `-3`. -/
theorem c5_nonpositive_count_fails_witness :
    mkThreadPool 0 = Except.error "Thread pool must have non-zero size" ∧
    mkThreadPool (-3)
      = Except.error "cannot create std::vector larger than max_size()" :=
  ⟨(c5_nonpositive_count_fails 0 (by decide)).2.1 rfl,
    (c5_nonpositive_count_fails (-3) (by decide)).2.2 (by decide)⟩

/-- C7: a worker's loop terminates (the `exitLoop` transition fires) only
in a state where `running_` is false and the work queue is empty; as long
as `running_` is true or the queue is non-empty no exit is possible, so
the worker keeps consuming work. -/
theorem c7_exit_only_when_stopped_and_drained {n : Nat} {s s' : PoolState}
    {t : Nat} (h : Reachable n s) (hstep : Step (Label.exitLoop t) s s') :
    s.running = false ∧ s.workQueue = [] := by
  cases hstep with
  | exitLoop _ _ hw hr =>
    exact ⟨hr, (reachable_goodState h).stoppedDrained hr⟩

/-- Witness for C7 at the demo state `demo5` (after the destructor
cleared `running_`), where worker 0 exits. -/
theorem c7_exit_only_when_stopped_and_drained_witness :
    demo5.running = false ∧ demo5.workQueue = [] :=
  c7_exit_only_when_stopped_and_drained demoReach5 demoStep56

/-- C2: an error-checked `WaitForWork` surfaces at most one error, namely
the front error of the lowest-indexed worker with a non-empty error
queue, and pops exactly that entry; without error checking nothing is
reported and the registry is untouched; each error-checked call on a
non-empty registry removes exactly one entry, so repeated calls drain the
registry one error at a time until none remain. -/
theorem c2_wait_surfaces_one_error :
    (∀ errs, waitForWork false errs = (none, errs)) ∧
    (∀ errs, totalErrors errs = 0 → waitForWork true errs = (none, errs)) ∧
    (∀ errs k e qrest, errs.getD k [] = e :: qrest →
      (∀ j, j < k → errs.getD j [] = []) →
      waitForWork true errs = (some (errMsg k e), errs.set k qrest)) ∧
    (∀ errs, totalErrors errs ≠ 0 →
      (waitForWork true errs).1.isSome = true ∧
        totalErrors (waitForWork true errs).2 = totalErrors errs - 1) := by
  refine ⟨?_, ?_, ?_, ?_⟩
  · intro errs
    simp [waitForWork]
  · intro errs h
    simp only [waitForWork, if_pos]
    exact scanErrors_of_all_empty errs 0 h
  · intro errs k e qrest hk hmin
    simp only [waitForWork, if_pos]
    have := scanErrors_first_nonempty errs 0 k e qrest hk hmin
    rwa [Nat.zero_add] at this
  · intro errs h
    simp only [waitForWork, if_pos]
    exact scanErrors_drains_one errs 0 h

/-- Witness for C2: a registry where worker 0 is clean and worker 1
queues `"boom"` followed by `"bang"`; one checked wait pops exactly
`"boom"`. -/
theorem c2_wait_surfaces_one_error_witness :
    waitForWork true [[], ["boom", "bang"]]
      = (some (errMsg 1 "boom"), [[], ["bang"]]) :=
  c2_wait_surfaces_one_error.2.2.1 [[], ["boom", "bang"]] 1 "boom" ["bang"]
    rfl
    (by
      intro j hj
      have hj0 : j = 0 := by omega
      subst hj0
      rfl)

/-- C8: if the registry contains exactly one error, message `m` captured
on worker `k` (every other queue empty), then an error-checked wait
surfaces the description `"Error in thread k: m"` — which names worker
`k` and carries `m` — and a second error-checked wait (no new work)
surfaces nothing; moreover a single failing item run on worker `k` of a
previously clean pool produces exactly that registry. -/
theorem c8_single_failure_roundtrip (n k : Nat) (m : String) (hk : k < n) :
    waitForWork true ((List.replicate n ([] : List String)).set k [m])
      = (some (errMsg k m), List.replicate n []) ∧
    errMsg k m = "Error in thread " ++ toString k ++ ": " ++ m ∧
    waitForWork true (List.replicate n []) = (none, List.replicate n []) ∧
    (∀ s s' i o, s.tlErrors = List.replicate n [] → o = Outcome.failure m →
      Step (Label.finish k i o) s s' →
      s'.tlErrors = (List.replicate n ([] : List String)).set k [m]) := by
  refine ⟨waitForWork_single n k m hk, rfl, ?_, ?_⟩
  · simp only [waitForWork, if_pos]
    apply scanErrors_of_all_empty
    simp [totalErrors]
  · intro s s' i o hclean ho hstep
    subst ho
    cases hstep with
    | finish _ _ _ _ hw =>
      show s.tlErrors.set k (recordOutcome (Outcome.failure m) (s.tlErrors.getD k []))
        = (List.replicate n ([] : List String)).set k [m]
      rw [hclean, getD_replicate_nil]
      rfl

/-- Witness for C8 on a pool of two workers with `"boom"` captured on
worker 0. -/
theorem c8_single_failure_roundtrip_witness :
    waitForWork true ((List.replicate 2 ([] : List String)).set 0 ["boom"])
      = (some (errMsg 0 "boom"), List.replicate 2 []) ∧
    errMsg 0 "boom" = "Error in thread " ++ toString 0 ++ ": " ++ "boom" ∧
    waitForWork true (List.replicate 2 []) = (none, List.replicate 2 []) :=
  ⟨(c8_single_failure_roundtrip 2 0 "boom" (by decide)).1,
    (c8_single_failure_roundtrip 2 0 "boom" (by decide)).2.1,
    (c8_single_failure_roundtrip 2 0 "boom" (by decide)).2.2.1⟩

/-- C10: a freshly constructed pool has `work_complete_ = true`, so the
completion wait's predicate already holds and a `WaitForWork` (with or
without error checking) proceeds immediately and reports nothing; if a
worker's initialisation section failed first, the registry holds that
error and an error-checked wait still surfaces it. -/
theorem c10_fresh_pool_wait (n t : Nat) (m : String) (ht : t < n) :
    (construct n).workComplete = true ∧
    (∀ checkForErrors,
      waitForWork checkForErrors (construct n).tlErrors
        = (none, (construct n).tlErrors)) ∧
    Step (Label.wait true) (construct n)
      { construct n with
        tlErrors := (waitForWork true (construct n).tlErrors).2 } ∧
    (∀ s', Step (Label.init t (Outcome.failure m)) (construct n) s' →
      s'.workComplete = true ∧
      waitForWork true s'.tlErrors = (some (errMsg t m), List.replicate n [])) := by
  refine ⟨rfl, ?_, Step.wait (construct n) true rfl, ?_⟩
  · intro checkForErrors
    cases checkForErrors with
    | false => simp [waitForWork]
    | true =>
      simp only [waitForWork, if_pos]
      apply scanErrors_of_all_empty
      simp [construct, totalErrors]
  · intro s' hstep
    cases hstep with
    | init _ _ _ hw =>
      refine ⟨rfl, ?_⟩
      show waitForWork true
          ((construct n).tlErrors.set t
            (recordOutcome (Outcome.failure m) ((construct n).tlErrors.getD t [])))
        = (some (errMsg t m), List.replicate n [])
      have : (construct n).tlErrors = List.replicate n [] := rfl
      rw [this, getD_replicate_nil]
      show waitForWork true ((List.replicate n ([] : List String)).set t [m])
        = (some (errMsg t m), List.replicate n [])
      exact waitForWork_single n t m ht

/-- The state after worker 1 of a fresh two-thread pool fails its
initialisation section with `"no device"`. -/
def demoInitFail : PoolState :=
  { construct 2 with
    workers := (construct 2).workers.set 1 WorkerPhase.idle
    tlErrors := (construct 2).tlErrors.set 1
      (recordOutcome (Outcome.failure "no device")
        ((construct 2).tlErrors.getD 1 [])) }

theorem demoInitFailStep :
    Step (Label.init 1 (Outcome.failure "no device")) (construct 2) demoInitFail :=
  Step.init (construct 2) 1 (Outcome.failure "no device") rfl

/-- Witness for C10 on a fresh pool of two workers, and on the same pool
after worker 1 failed initialisation with `"no device"`. -/
theorem c10_fresh_pool_wait_witness :
    (construct 2).workComplete = true ∧
    waitForWork true (construct 2).tlErrors = (none, (construct 2).tlErrors) ∧
    Step (Label.wait true) (construct 2)
      { construct 2 with
        tlErrors := (waitForWork true (construct 2).tlErrors).2 } ∧
    demoInitFail.workComplete = true ∧
    waitForWork true demoInitFail.tlErrors
      = (some (errMsg 1 "no device"), List.replicate 2 []) :=
  ⟨(c10_fresh_pool_wait 2 1 "no device" (by decide)).1,
    (c10_fresh_pool_wait 2 1 "no device" (by decide)).2.1 true,
    (c10_fresh_pool_wait 2 1 "no device" (by decide)).2.2.1,
    ((c10_fresh_pool_wait 2 1 "no device" (by decide)).2.2.2
      demoInitFail demoInitFailStep).1,
    ((c10_fresh_pool_wait 2 1 "no device" (by decide)).2.2.2
      demoInitFail demoInitFailStep).2⟩

/-- C3: the destructor's shutdown transition is guarded by the completion
predicate of its internal non-error-checking `WaitForWork(false)`; when
it fires, the queue is empty, no worker is mid-item (an in-flight item
has finished), and every submitted item has completed — none dropped or
skipped; the step clears `running_`, leaves the error registry intact
(no error check), and every worker that is idle afterwards can take its
exit transition, so each join can complete. -/
theorem c3_shutdown_after_drain {n : Nat} {s s' : PoolState}
    (h : Reachable n s) (hstep : Step Label.shutdown s s') :
    s.workComplete = true ∧ s.workQueue = [] ∧ s.activeThreads = 0 ∧
    s.completedCount = s.submitted.length ∧
    s'.running = false ∧ s'.tlErrors = s.tlErrors ∧ s'.workQueue = [] ∧
    (∀ t, s'.workers.getD t WorkerPhase.terminated = WorkerPhase.idle →
      Step (Label.exitLoop t) s'
        { s' with workers := s'.workers.set t WorkerPhase.terminated }) := by
  have hg := reachable_goodState h
  cases hstep with
  | shutdown _ hc hr =>
    have hqa := hg.completeIff.mp hc
    have hexec : execCount s = 0 := by
      have h1 := hg.activeEq
      rw [hqa.2] at h1
      omega
    have hstarted : s.started = s.submitted := by
      have h2 := hg.fifo
      rw [hqa.1] at h2
      simpa using h2
    have h3 := hg.startedLen
    rw [hstarted, hexec] at h3
    refine ⟨hc, hqa.1, hqa.2, by omega, rfl, rfl, hqa.1, ?_⟩
    intro t hidle
    exact Step.exitLoop _ t hidle rfl

/-- Witness for C3 at the demo states `demo4` (destructor entered after
the single item completed) and `demo5` (after `running_` was cleared),
including worker 0's now-enabled exit. -/
theorem c3_shutdown_after_drain_witness :
    (demo4.workComplete = true ∧ demo4.workQueue = [] ∧
      demo4.activeThreads = 0 ∧
      demo4.completedCount = demo4.submitted.length ∧
      demo5.running = false ∧ demo5.tlErrors = demo4.tlErrors ∧
      demo5.workQueue = []) ∧
    Step (Label.exitLoop 0) demo5
      { demo5 with workers := demo5.workers.set 0 WorkerPhase.terminated } :=
  ⟨⟨(c3_shutdown_after_drain demoReach4 demoStep45).1,
    (c3_shutdown_after_drain demoReach4 demoStep45).2.1,
    (c3_shutdown_after_drain demoReach4 demoStep45).2.2.1,
    (c3_shutdown_after_drain demoReach4 demoStep45).2.2.2.1,
    (c3_shutdown_after_drain demoReach4 demoStep45).2.2.2.2.1,
    (c3_shutdown_after_drain demoReach4 demoStep45).2.2.2.2.2.1,
    (c3_shutdown_after_drain demoReach4 demoStep45).2.2.2.2.2.2.1⟩,
    (c3_shutdown_after_drain demoReach4 demoStep45).2.2.2.2.2.2.2 0 rfl⟩

/-- C4: when a worker pops work (the `start` transition), it removes the
head of the queue in a single step, the popped item was never popped
before, the pop and execution start coincide on one worker, and the
dequeue order extended with the remaining queue is still exactly the
submission order (FIFO, each item exactly once — the dequeue history
stays duplicate-free). -/
theorem c4_fifo_exactly_once {n : Nat} {s s' : PoolState} {t i : Nat}
    (h : Reachable n s) (hstep : Step (Label.start t i) s s') :
    s.workQueue.head? = some i ∧
    s'.workQueue = s.workQueue.tail ∧
    i ∉ s.started ∧
    s'.started = s.started ++ [i] ∧
    s'.workers.getD t WorkerPhase.terminated = WorkerPhase.executing i ∧
    s'.started ++ s'.workQueue = s'.submitted ∧
    s'.started.Nodup := by
  have h' : Reachable n s' := h.tail ⟨_, hstep⟩
  have hg := reachable_goodState h
  have hg' := reachable_goodState h'
  cases hstep with
  | start _ _ _ rest hw hr hq =>
    have ht : t < s.workers.length := getD_lt_length hw (by intro hx; cases hx)
    have hnd : (s.started ++ s.workQueue).Nodup := by
      rw [hg.fifo, hg.submittedEq]
      exact List.nodup_range _
    refine ⟨?_, ?_, ?_, rfl, getD_set_self _ _ _ _ ht, hg'.fifo, ?_⟩
    · rw [hq]
      rfl
    · rw [hq]
      rfl
    · rw [hq] at hnd
      have hdisj := (List.nodup_append.mp hnd).2.2
      have hmem : i ∈ i :: rest := List.mem_cons_self i rest
      exact fun hin => hdisj hin hmem
    · rw [hq] at hnd
      have hsub : List.Sublist (s.started ++ [i]) (s.started ++ i :: rest) :=
        List.Sublist.append_left (List.Sublist.cons₂ i (List.nil_sublist rest))
          s.started
      exact List.Nodup.sublist hsub hnd

/-- Witness for C4 at the demo pop `demo2 → demo3` (worker 0, item 0). -/
theorem c4_fifo_exactly_once_witness :
    demo2.workQueue.head? = some 0 ∧
    demo3.workQueue = demo2.workQueue.tail ∧
    0 ∉ demo2.started ∧
    demo3.started = demo2.started ++ [0] ∧
    demo3.workers.getD 0 WorkerPhase.terminated = WorkerPhase.executing 0 ∧
    demo3.started ++ demo3.workQueue = demo3.submitted ∧
    demo3.started.Nodup :=
  c4_fifo_exactly_once demoReach2 demoStep23

theorem getD_set_keeps_initializing {l : List WorkerPhase} {u t : Nat}
    {v : WorkerPhase} (hv : v ≠ WorkerPhase.initializing)
    (h : (l.set u v).getD t WorkerPhase.terminated = WorkerPhase.initializing) :
    l.getD t WorkerPhase.terminated = WorkerPhase.initializing := by
  by_cases htu : u = t
  · subst htu
    by_cases hu : u < l.length
    · rw [getD_set_self _ _ _ _ hu] at h
      exact absurd h hv
    · have hd : (l.set u v).getD u WorkerPhase.terminated
          = WorkerPhase.terminated := by
        apply List.getD_eq_default
        rw [List.length_set]
        omega
      rw [hd] at h
      cases h
  · rw [getD_set_of_ne _ _ _ _ _ htu] at h
    exact h

/-- C6: a failure raised while running a work item — and likewise while
running the per-worker initialisation section — is caught by the
executing worker and appended to that worker's own error queue via
`recordOutcome`: a `std::runtime_error` as its message, an unrecognised
exception kind as `"Caught unknown exception"` (never dropped); the
other workers' queues and phases are untouched, `running_` is untouched,
and the worker moves to the idle phase of its loop rather than
aborting. -/
theorem c6_errors_captured_locally {n : Nat} {s s' : PoolState}
    {t : Nat} {o : Outcome}
    (h : Reachable n s)
    (hstep : (∃ i, Step (Label.finish t i o) s s') ∨ Step (Label.init t o) s s') :
    s'.tlErrors.getD t [] = recordOutcome o (s.tlErrors.getD t []) ∧
    (∀ u, u ≠ t → s'.tlErrors.getD u [] = s.tlErrors.getD u []) ∧
    (∀ u, u ≠ t → s'.workers.getD u WorkerPhase.terminated
      = s.workers.getD u WorkerPhase.terminated) ∧
    s'.workers.getD t WorkerPhase.terminated = WorkerPhase.idle ∧
    s'.running = s.running ∧
    (∀ q, recordOutcome Outcome.unknownFailure q
      = q ++ ["Caught unknown exception"]) ∧
    (∀ msg q, recordOutcome (Outcome.failure msg) q = q ++ [msg]) := by
  have hg := reachable_goodState h
  rcases hstep with ⟨i, hstep⟩ | hstep
  · cases hstep with
    | finish _ _ _ _ hw =>
      have htw : t < s.workers.length := getD_lt_length hw (by intro hx; cases hx)
      have hte : t < s.tlErrors.length := by
        rw [hg.errorsLen, ← hg.workersLen]
        exact htw
      refine ⟨getD_set_self _ _ _ _ hte, ?_, ?_, getD_set_self _ _ _ _ htw, rfl,
        fun q => rfl, fun msg q => rfl⟩
      · intro u hu
        exact getD_set_of_ne _ _ _ _ _ (fun hx => hu hx.symm)
      · intro u hu
        exact getD_set_of_ne _ _ _ _ _ (fun hx => hu hx.symm)
  · cases hstep with
    | init _ _ _ hw =>
      have htw : t < s.workers.length := getD_lt_length hw (by intro hx; cases hx)
      have hte : t < s.tlErrors.length := by
        rw [hg.errorsLen, ← hg.workersLen]
        exact htw
      refine ⟨getD_set_self _ _ _ _ hte, ?_, ?_, getD_set_self _ _ _ _ htw, rfl,
        fun q => rfl, fun msg q => rfl⟩
      · intro u hu
        exact getD_set_of_ne _ _ _ _ _ (fun hx => hu hx.symm)
      · intro u hu
        exact getD_set_of_ne _ _ _ _ _ (fun hx => hu hx.symm)

/-- Witness for C6 at the demo execution `demo3 → demo4`, where item 0
throws an unrecognised exception on worker 0. -/
theorem c6_errors_captured_locally_witness :
    demo4.tlErrors.getD 0 []
      = recordOutcome Outcome.unknownFailure (demo3.tlErrors.getD 0 []) ∧
    demo4.workers.getD 0 WorkerPhase.terminated = WorkerPhase.idle ∧
    demo4.running = demo3.running ∧
    recordOutcome Outcome.unknownFailure [] = ["Caught unknown exception"] ∧
    recordOutcome (Outcome.failure "boom") [] = ["boom"] :=
  ⟨(c6_errors_captured_locally demoReach3 (Or.inl ⟨0, demoStep34⟩)).1,
    (c6_errors_captured_locally demoReach3 (Or.inl ⟨0, demoStep34⟩)).2.2.2.1,
    (c6_errors_captured_locally demoReach3 (Or.inl ⟨0, demoStep34⟩)).2.2.2.2.1,
    (c6_errors_captured_locally demoReach3 (Or.inl ⟨0, demoStep34⟩)).2.2.2.2.2.1 [],
    (c6_errors_captured_locally demoReach3 (Or.inl ⟨0, demoStep34⟩)).2.2.2.2.2.2
      "boom" []⟩

/-- C9: construction with a valid thread count `n > 0` succeeds and
yields exactly `n` workers, all at their initialisation section, with
one empty error queue allocated per worker; the only transition out of
the initialisation phase is the `init` step, which records its outcome
into that worker's own queue through the same `recordOutcome` used for
work-item failures and moves the worker to idle; no step ever returns a
worker to the initialisation phase (so it runs at most — hence exactly —
once), and popping work requires the idle phase, i.e. happens only after
initialisation. -/
theorem c9_construction_and_init (n : Nat) (hn : 0 < n) :
    mkThreadPool (n : Int) = Except.ok (construct n) ∧
    (construct n).workers = List.replicate n WorkerPhase.initializing ∧
    (construct n).tlErrors = List.replicate n [] ∧
    (construct n).workers.length = n ∧
    (construct n).tlErrors.length = n ∧
    (∀ s s' t o, Step (Label.init t o) s s' →
      s.workers.getD t WorkerPhase.terminated = WorkerPhase.initializing ∧
      s'.workers.getD t WorkerPhase.terminated = WorkerPhase.idle ∧
      s'.tlErrors = s.tlErrors.set t (recordOutcome o (s.tlErrors.getD t []))) ∧
    (∀ l s s' t, Step l s s' →
      s'.workers.getD t WorkerPhase.terminated = WorkerPhase.initializing →
      s.workers.getD t WorkerPhase.terminated = WorkerPhase.initializing) ∧
    (∀ s s' t i, Step (Label.start t i) s s' →
      s.workers.getD t WorkerPhase.terminated = WorkerPhase.idle) := by
  have hpos : (0 : Int) < (n : Int) := by exact_mod_cast hn
  have hnn : ¬((n : Int) < 0) := by omega
  refine ⟨?_, rfl, rfl, by simp [construct], by simp [construct], ?_, ?_, ?_⟩
  · simp [mkThreadPool, threadsMemberInit, daliEnforce, hpos, hnn, Bind.bind,
      Except.bind, Pure.pure, Except.pure]
  · intro s s' t o hstep
    cases hstep with
    | init _ _ _ hw =>
      have htw : t < s.workers.length := getD_lt_length hw (by intro hx; cases hx)
      exact ⟨hw, getD_set_self _ _ _ _ htw, rfl⟩
  · intro l s s' t hstep hinit
    cases hstep with
    | submit _ _ => exact hinit
    | init _ _ _ _ =>
      exact getD_set_keeps_initializing (by intro hx; cases hx) hinit
    | start _ _ _ _ _ _ _ =>
      exact getD_set_keeps_initializing (by intro hx; cases hx) hinit
    | finish _ _ _ _ _ =>
      exact getD_set_keeps_initializing (by intro hx; cases hx) hinit
    | exitLoop _ _ _ _ =>
      exact getD_set_keeps_initializing (by intro hx; cases hx) hinit
    | wait _ _ _ => exact hinit
    | shutdown _ _ _ => exact hinit
  · intro s s' t i hstep
    cases hstep with
    | start _ _ _ _ hw _ _ => exact hw

/-- Witness for C9 on a pool of two workers, instantiating the `init`
inversion on the demo step `demo0 → demo1` and the idle requirement on
the demo pop `demo2 → demo3`. -/
theorem c9_construction_and_init_witness :
    mkThreadPool (2 : Int) = Except.ok (construct 2) ∧
    (construct 2).workers = List.replicate 2 WorkerPhase.initializing ∧
    (construct 2).tlErrors = List.replicate 2 [] ∧
    (construct 2).workers.length = 2 ∧
    (construct 2).tlErrors.length = 2 ∧
    demo0.workers.getD 0 WorkerPhase.terminated = WorkerPhase.initializing ∧
    demo1.workers.getD 0 WorkerPhase.terminated = WorkerPhase.idle ∧
    demo1.tlErrors
      = demo0.tlErrors.set 0 (recordOutcome Outcome.success (demo0.tlErrors.getD 0 [])) ∧
    demo2.workers.getD 0 WorkerPhase.terminated = WorkerPhase.idle := by
  have hc := c9_construction_and_init 2 (by decide)
  exact ⟨hc.1, hc.2.1, hc.2.2.1, hc.2.2.2.1, hc.2.2.2.2.1,
    (hc.2.2.2.2.2.1 demo0 demo1 0 Outcome.success demoStep01).1,
    (hc.2.2.2.2.2.1 demo0 demo1 0 Outcome.success demoStep01).2.1,
    (hc.2.2.2.2.2.1 demo0 demo1 0 Outcome.success demoStep01).2.2,
    hc.2.2.2.2.2.2.2 demo2 demo3 0 0 demoStep23⟩

end DALI
